import Mathlib

/-!
Verification of the animation blend-tree / transition state machine in
`src/behaviors/animation/AnimationController.ts`.

The controller state and its operations are shallowly embedded as executable
Lean functions.  JavaScript numbers are idealised as `ℚ` in the state machine
(all operations there are field operations), and as `ℝ` in the idealised
blend-weight model (the inverse-distance formula uses a square root).
`Math.sqrt` inside the executable state machine is threaded as an explicit
function parameter `msqrt`, since the state-machine claims do not depend on
its values.

JavaScript `Map` objects are embedded as insertion-ordered association lists
(`mapSet` replaces in place or appends, like `Map.set`), which preserves the
iteration order the source relies on.  Node lookups keyed by a node *id*
string that the source performs with an `AnimationState` enum value (e.g.
`this.nodes.get(this.activeBlend.fromState)`) are embedded through
`AnimationState.str`, which maps the enum to its string value, so the
id-versus-state punning of the source is preserved exactly.
-/

/-- The `AnimationState` string enum of the source. -/
inductive AnimationState where
  | idle
  | walkForward
  | walkBackward
  | walkLeft
  | walkRight
  | runForward
  | runBackward
  | runLeft
  | runRight
  | jumpUp
  | jumpFalling
deriving DecidableEq, Repr

/-- The string value of each `AnimationState` enum member. -/
def AnimationState.str : AnimationState → String
  | .idle => "Idle"
  | .walkForward => "WalkForward"
  | .walkBackward => "WalkBackward"
  | .walkLeft => "WalkLeft"
  | .walkRight => "WalkRight"
  | .runForward => "RunForward"
  | .runBackward => "RunBackward"
  | .runLeft => "RunLeft"
  | .runRight => "RunRight"
  | .jumpUp => "JumpUp"
  | .jumpFalling => "JumpFalling"

/-- A `number | boolean` variable value. -/
inductive VarValue where
  | num (q : ℚ)
  | bool (b : Bool)
deriving DecidableEq, Repr

/-- The comparison operators of `TransitionCondition`. -/
inductive CmpOp where
  | eq
  | ne
  | gt
  | lt
  | ge
  | le
deriving DecidableEq, Repr

/-- `TransitionCondition` of the source. -/
structure TransitionCondition where
  variable' : String
  operator : CmpOp
  value : VarValue
deriving DecidableEq, Repr

/-- `AnimationTransition` of the source (`from`/`to` are Lean-reserved,
hence `fromNode`/`toNode`). -/
structure AnimationTransition where
  fromNode : String
  toNode : String
  conditions : List TransitionCondition
  crossFadeDuration : ℚ
deriving DecidableEq, Repr

/-- One `{ state, position }` entry of a blend node's `animations` array. -/
structure BlendSample where
  state : AnimationState
  x : ℚ
  z : ℚ
deriving DecidableEq, Repr

/-- `AnimationSingleNode` of the source (the `type` tag becomes the
constructor of `AnimationNode`). -/
structure AnimationSingleNode where
  id : String
  state : AnimationState
  speed : ℚ
  loop : Bool
deriving DecidableEq, Repr

/-- `AnimationBlendNode` of the source. -/
structure AnimationBlendNode where
  id : String
  animations : List BlendSample
deriving DecidableEq, Repr

/-- `AnimationNode = AnimationSingleNode | AnimationBlendNode`. -/
inductive AnimationNode where
  | single (s : AnimationSingleNode)
  | blend (b : AnimationBlendNode)
deriving DecidableEq, Repr

/-- The `id` of a node, independent of its variant. -/
def AnimationNode.nid : AnimationNode → String
  | .single s => s.id
  | .blend b => b.id

/-- `BlendInfo` of the source. -/
structure BlendInfo where
  fromState : AnimationState
  toState : AnimationState
  progress : ℚ
  duration : ℚ
deriving DecidableEq, Repr

/-- The observable state of one Babylon `AnimationGroup`: its uniform
animatable weight and whether it is playing. -/
structure GroupState where
  weight : ℚ
  playing : Bool
deriving DecidableEq, Repr

/-- The mutable state of an `AnimationController` instance. -/
structure CtrlState where
  currentNodeId : String
  nodes : List (String × AnimationNode)
  animationGroups : List (AnimationState × GroupState)
  activeBlend : Option BlendInfo
  blendWeights : List (AnimationState × ℚ)
  transitions : List AnimationTransition
  vars : List (String × VarValue)
deriving DecidableEq, Repr

/-- `Map.get`: first (and, under `mapSet` discipline, only) binding of a key. -/
def mapLookup {α β : Type} [DecidableEq α] : List (α × β) → α → Option β
  | [], _ => none
  | (k', v') :: rest, k => if k' = k then some v' else mapLookup rest k

/-- `Map.set`: replace the binding in place if the key is present, keeping
insertion order, otherwise append. -/
def mapSet {α β : Type} [DecidableEq α] : List (α × β) → α → β → List (α × β)
  | [], k, v => [(k, v)]
  | (k', v') :: rest, k, v =>
      if k' = k then (k', v) :: rest else (k', v') :: mapSet rest k v

/-- `easeInOutQuad` of the source:
`t < 0.5 ? 2 * t * t : -1 + (4 - 2 * t) * t`. -/
def easeInOutQuad (t : ℚ) : ℚ :=
  if t < 0.5 then 2 * t * t else -1 + (4 - 2 * t) * t

/-- `animGroup?.setWeightForAllAnimatables(w)`: a missing group is a no-op. -/
def setWeight (s : AnimationState) (w : ℚ) (st : CtrlState) : CtrlState :=
  { st with animationGroups :=
      st.animationGroups.map fun p => if p.1 = s then (p.1, { p.2 with weight := w }) else p }

/-- `animGroup?.start()`. -/
def startGroup (s : AnimationState) (st : CtrlState) : CtrlState :=
  { st with animationGroups :=
      st.animationGroups.map fun p => if p.1 = s then (p.1, { p.2 with playing := true }) else p }

/-- `animGroup?.stop()`. -/
def stopGroup (s : AnimationState) (st : CtrlState) : CtrlState :=
  { st with animationGroups :=
      st.animationGroups.map fun p => if p.1 = s then (p.1, { p.2 with playing := false }) else p }

/-- `stopAllAnimations`: every *playing* group is stopped and zeroed;
non-playing groups keep their weight (the source guards with `isPlaying`). -/
def stopAllAnimations (st : CtrlState) : CtrlState :=
  { st with animationGroups :=
      st.animationGroups.map fun p =>
        if p.2.playing then (p.1, { weight := 0, playing := false }) else p }

/-- `playAnimationImmediate`: stop everything, then give the target weight 1
and start it. -/
def playAnimationImmediate (s : AnimationState) (st : CtrlState) : CtrlState :=
  startGroup s (setWeight s 1 (stopAllAnimations st))

/-- The dominant-search loop of `getDominantAnimationState`: strict `>`
against the running maximum, the running maximum starting at 0 and the
running dominant at `animations[0].state`. -/
def dominantLoop (bw : List (AnimationState × ℚ)) :
    List BlendSample → AnimationState → ℚ → AnimationState
  | [], dom, _ => dom
  | a :: rest, dom, mx =>
      let w := (mapLookup bw a.state).getD 0
      if w > mx then dominantLoop bw rest a.state w else dominantLoop bw rest dom mx

/-- `getDominantAnimationState`: throws when the node id is unknown; for a
blend node with an empty sample list the source dereferences
`animations[0].state`, a TypeError, modelled as an error as well. -/
def getDominantAnimationState (st : CtrlState) (nodeId : String) :
    Except String AnimationState :=
  match mapLookup st.nodes nodeId with
  | none => .error ("Previous node not found: " ++ nodeId)
  | some (.single s) => .ok s.state
  | some (.blend b) =>
      match b.animations with
      | [] => .error "TypeError: animations[0] is undefined"
      | a0 :: rest => .ok (dominantLoop st.blendWeights (a0 :: rest) a0.state 0)

/-- `completeCrossFade`: snap the target weights, stop the outgoing clip(s),
clear `activeBlend`.  The outgoing-node lookup `nodes.get(fromState)` keys the
node map with an `AnimationState` string, preserved via `.str`.  The second
component is the thrown error, if any. -/
def completeCrossFade (st : CtrlState) : CtrlState × Option String :=
  match st.activeBlend with
  | none => (st, none)
  | some blend =>
      match mapLookup st.nodes st.currentNodeId with
      | none => (st, some ("to state not found: " ++ st.currentNodeId))
      | some currentNode =>
          let st1 : CtrlState :=
            match currentNode with
            | .blend _ => st.blendWeights.foldl (fun s p => setWeight p.1 p.2 s) st
            | .single _ => setWeight blend.toState 1 st
          let st2 : CtrlState :=
            match mapLookup st1.nodes blend.fromState.str with
            | some (.blend prev) =>
                prev.animations.foldl (fun s a => setWeight a.state 0 (stopGroup a.state s)) st1
            | _ => setWeight blend.fromState 0 (stopGroup blend.fromState st1)
          ({ st2 with activeBlend := none }, none)

/-- The tail of `startCrossFade` after the cancel-current-blend step: silent
return when the target group is missing, otherwise weight 1 + start, then a
fresh `BlendInfo` from the dominant state of the (still current) node. -/
def startCrossFadeCore (toState : AnimationState) (d : ℚ) (st : CtrlState) :
    CtrlState × Option String :=
  match mapLookup st.animationGroups toState with
  | none => (st, none)
  | some _ =>
      let st1 := startGroup toState (setWeight toState 1 st)
      match getDominantAnimationState st1 st1.currentNodeId with
      | .error e => (st1, some e)
      | .ok prevState =>
          let bi : BlendInfo :=
            { fromState := prevState, toState := toState, progress := 0, duration := d }
          ({ st1 with activeBlend := some bi }, none)

/-- `startCrossFade`: if a cross-fade is active, finalize it first via
`completeCrossFade`, then proceed as `startCrossFadeCore`. -/
def startCrossFade (toState : AnimationState) (d : ℚ) (st : CtrlState) :
    CtrlState × Option String :=
  match (if st.activeBlend.isSome then completeCrossFade st else (st, none)) with
  | (st0, some e) => (st0, some e)
  | (st0, none) => startCrossFadeCore toState d st0

/-- `updateCrossFadeWeights`: the target branch keys `nodes.get` with
`activeBlend.toState` (an `AnimationState` string) and the source branch with
`activeBlend.fromState`, both preserved via `.str`. -/
def updateCrossFadeWeights (st : CtrlState) : CtrlState :=
  match st.activeBlend with
  | none => st
  | some blend =>
      let easeProgress := easeInOutQuad blend.progress
      let st1 : CtrlState :=
        match mapLookup st.nodes blend.toState.str with
        | some (.blend _) =>
            st.blendWeights.foldl (fun s p => setWeight p.1 (p.2 * easeProgress) s) st
        | _ => setWeight blend.toState easeProgress st
      match mapLookup st1.nodes blend.fromState.str with
      | some (.blend prev) =>
          prev.animations.foldl
            (fun s a =>
              setWeight a.state (((mapLookup st1.blendWeights a.state).getD 0) * (1 - easeProgress)) s)
            st1
      | _ => setWeight blend.fromState (1 - easeProgress) st1

/-- `updateCrossFade`, with the scene's `deltaTime` passed explicitly:
advance progress by `dt / duration`, then finalize or apply intermediate
weights. -/
def updateCrossFade (dt : ℚ) (st : CtrlState) : CtrlState × Option String :=
  match st.activeBlend with
  | none => (st, none)
  | some blend =>
      let p := blend.progress + dt / blend.duration
      let st1 := { st with activeBlend := some { blend with progress := p } }
      if p ≥ 1 then completeCrossFade st1 else (updateCrossFadeWeights st1, none)

/-- The numeric coercion of `(this.variables.get(name) as number) || 0`:
a missing value or falsy 0 yields 0, a boolean coerces through JavaScript
arithmetic to 1 or 0. -/
def numValue : Option VarValue → ℚ
  | some (.num q) => q
  | some (.bool b) => if b then 1 else 0
  | none => 0

/-- `updateBlendNodeWeights` (state-machine version, `Math.sqrt` threaded as
`msqrt`): inverse-distance weights keyed by state in a `Map` (`mapSet`, so a
later sample with the same state *overwrites* the earlier weight while the
running total still counts both), then normalisation by the total. -/
def updateBlendNodeWeightsQ (msqrt : ℚ → ℚ) (blendNode : AnimationBlendNode)
    (st : CtrlState) : CtrlState :=
  let x := numValue (mapLookup st.vars "directionX")
  let z := numValue (mapLookup st.vars "directionZ")
  let acc : List (AnimationState × ℚ) × ℚ :=
    blendNode.animations.foldl
      (fun acc a =>
        let dx := x - a.x
        let dz := z - a.z
        let distance := msqrt (dx * dx + dz * dz)
        let w := 1 / (distance + 0.001)
        (mapSet acc.1 a.state w, acc.2 + w))
      ([], 0)
  { st with blendWeights := acc.1.map fun p => (p.1, p.2 / acc.2) }

/-- `applyBlendNodeWeights`: start each stopped member group, then apply its
blend weight. -/
def applyBlendNodeWeights (st : CtrlState) : CtrlState :=
  st.blendWeights.foldl
    (fun s p =>
      let s1 : CtrlState :=
        match mapLookup s.animationGroups p.1 with
        | some g => if g.playing then s else startGroup p.1 s
        | none => s
      setWeight p.1 p.2 s1)
    st

/-- `startBlendCrossFade`: zero and start every member clip of the target
blend node, then create a fresh `BlendInfo` — without finalizing any
cross-fade already in flight. -/
def startBlendCrossFade (toBlendNode : AnimationBlendNode) (d : ℚ)
    (st : CtrlState) : CtrlState × Option String :=
  let st1 : CtrlState :=
    toBlendNode.animations.foldl (fun s a => startGroup a.state (setWeight a.state 0 s)) st
  match getDominantAnimationState st1 toBlendNode.id with
  | .error e => (st1, some e)
  | .ok dominantState =>
      match getDominantAnimationState st1 st1.currentNodeId with
      | .error e => (st1, some e)
      | .ok prevState =>
          let bi : BlendInfo :=
            { fromState := prevState, toState := dominantState, progress := 0, duration := d }
          ({ st1 with activeBlend := some bi }, none)

/-- `startBlendNode`: recompute the blend weights, then cross-fade or switch
immediately. -/
def startBlendNode (msqrt : ℚ → ℚ) (node : AnimationBlendNode) (d : ℚ)
    (st : CtrlState) : CtrlState × Option String :=
  let st1 := updateBlendNodeWeightsQ msqrt node st
  if d > 0 then startBlendCrossFade node d st1
  else (applyBlendNodeWeights (stopAllAnimations st1), none)

/-- `startSingleNode`: throws when the node's state has no animation group;
otherwise cross-fade or play immediately. -/
def startSingleNode (node : AnimationSingleNode) (d : ℚ) (st : CtrlState) :
    CtrlState × Option String :=
  match mapLookup st.animationGroups node.state with
  | none => (st, some ("Animation state '" ++ node.state.str ++ "' not found, skipping"))
  | some _ =>
      if d > 0 then startCrossFade node.state d st
      else (playAnimationImmediate node.state st, none)

/-- `playNode`: early no-op when the target is already current with no active
cross-fade; a thrown error (second component) exactly for an unknown node id;
otherwise dispatch on the node variant with the inner error swallowed
(`catch` + `console.warn`) and `currentNodeId` assigned in the `finally`
block even when the inner call threw. -/
def playNode (msqrt : ℚ → ℚ) (nodeId : String) (d : ℚ) (st : CtrlState) :
    CtrlState × Option String :=
  if st.currentNodeId = nodeId ∧ st.activeBlend = none then (st, none)
  else
    match mapLookup st.nodes nodeId with
    | none => (st, some ("Node '" ++ nodeId ++ "' not found"))
    | some node =>
        let inner : CtrlState × Option String :=
          match node with
          | .blend b => startBlendNode msqrt b d st
          | .single s => startSingleNode s d st
        ({ inner.1 with currentNodeId := nodeId }, none)

/-- JavaScript strict equality `===` restricted to `number | boolean`
operands: cross-type comparison is `false`. -/
def jsEq : VarValue → VarValue → Bool
  | .num a, .num b => a == b
  | .bool a, .bool b => a == b
  | _, _ => false

/-- `evaluateCondition`: a variable that has never been set makes the
condition false; ordering operators additionally require both operands to be
numbers (`typeof` guards in the source). -/
def evaluateCondition (st : CtrlState) (c : TransitionCondition) : Bool :=
  match mapLookup st.vars c.variable' with
  | none => false
  | some v =>
      match c.operator with
      | .eq => jsEq v c.value
      | .ne => !jsEq v c.value
      | .gt =>
          match v, c.value with
          | .num a, .num b => a > b
          | _, _ => false
      | .lt =>
          match v, c.value with
          | .num a, .num b => a < b
          | _, _ => false
      | .ge =>
          match v, c.value with
          | .num a, .num b => a ≥ b
          | _, _ => false
      | .le =>
          match v, c.value with
          | .num a, .num b => a ≤ b
          | _, _ => false

/-- The per-transition decision of the `evaluateTransitions` loop body:
`continue` when `from` differs from the current node; an empty condition list
is satisfied only for a current *single* node whose animation group exists
and is not playing; a non-empty list is satisfied when every condition
evaluates true. -/
def transitionFires (st : CtrlState) (tr : AnimationTransition) : Bool :=
  if tr.fromNode ≠ st.currentNodeId then false
  else if tr.conditions.isEmpty then
    match mapLookup st.nodes st.currentNodeId with
    | some (.single s) =>
        match mapLookup st.animationGroups s.state with
        | some g => !g.playing
        | none => false
    | _ => false
  else tr.conditions.all (evaluateCondition st)

/-- The `for` loop of `evaluateTransitions`: return the first transition the
loop body accepts. -/
def evaluateTransitionsAux (st : CtrlState) :
    List AnimationTransition → Option AnimationTransition
  | [] => none
  | tr :: rest => if transitionFires st tr then some tr else evaluateTransitionsAux st rest

/-- `evaluateTransitions` over the controller's transition list. -/
def evaluateTransitions (st : CtrlState) : Option AnimationTransition :=
  evaluateTransitionsAux st st.transitions

/-- `setVariable`. -/
def setVariable (name : String) (v : VarValue) (st : CtrlState) : CtrlState :=
  { st with vars := mapSet st.vars name v }

/-- The node map insertion loop of the constructor: `Map.has` duplicate check,
then `Map.set`. -/
def buildNodesMap : List AnimationNode → List (String × AnimationNode) →
    Except String (List (String × AnimationNode))
  | [], acc => .ok acc
  | n :: rest, acc =>
      if (mapLookup acc n.nid).isSome then .error ("Duplicate node ID: " ++ n.nid)
      else buildNodesMap rest (mapSet acc n.nid n)

/-- The transition-reference validation loop of the constructor. -/
def checkTransitions (m : List (String × AnimationNode)) :
    List AnimationTransition → Except String Unit
  | [] => .ok ()
  | tr :: rest =>
      if (mapLookup m tr.fromNode).isSome = false then
        .error ("Transition references unknown node: " ++ tr.fromNode)
      else if (mapLookup m tr.toNode).isSome = false then
        .error ("Transition references unknown node: " ++ tr.toNode)
      else checkTransitions m rest

/-- The `AnimationController` constructor: build the node map (duplicate check),
validate transition references, validate the initial node id, and return the
initial state (animation groups are populated later, in `setupAnimations`). -/
def construct (nodesList : List AnimationNode)
    (transitionsList : List AnimationTransition) (initialId : String) :
    Except String CtrlState :=
  match buildNodesMap nodesList [] with
  | .error e => .error e
  | .ok m =>
      match checkTransitions m transitionsList with
      | .error e => .error e
      | .ok _ =>
          if (mapLookup m initialId).isSome = false then
            .error ("Initial node references unknown node: " ++ initialId)
          else
            .ok { currentNodeId := initialId, nodes := m, animationGroups := [],
                  activeBlend := none, blendWeights := [],
                  transitions := transitionsList, vars := [] }

/-- The `movement` blend node of `ANIMATION_NODES`. -/
def movementNode : AnimationBlendNode :=
  { id := "movement",
    animations :=
      [ { state := .idle, x := 0, z := 0 },
        { state := .walkForward, x := 0, z := 1 },
        { state := .walkBackward, x := 0, z := -1 },
        { state := .walkLeft, x := -1, z := 0 },
        { state := .walkRight, x := 1, z := 0 },
        { state := .runForward, x := 0, z := 2 },
        { state := .runBackward, x := 0, z := -2 },
        { state := .runLeft, x := -2, z := 0 },
        { state := .runRight, x := 2, z := 0 } ] }

/-- `ANIMATION_NODES` of the source. -/
def ANIMATION_NODES : List AnimationNode :=
  [ .blend movementNode,
    .single { id := "JumpUp", state := .jumpUp, speed := 1, loop := false },
    .single { id := "JumpFalling", state := .jumpFalling, speed := 1, loop := true } ]

/-- `ANIMATION_TRANSITIONS` of the source. -/
def ANIMATION_TRANSITIONS : List AnimationTransition :=
  [ { fromNode := "movement", toNode := "JumpUp",
      conditions := [ { variable' := "isJumping", operator := .eq, value := .bool true } ],
      crossFadeDuration := 0 },
    { fromNode := "JumpUp", toNode := "JumpFalling",
      conditions := [], crossFadeDuration := 0 },
    { fromNode := "JumpFalling", toNode := "movement",
      conditions := [ { variable' := "isJumping", operator := .eq, value := .bool false } ],
      crossFadeDuration := 0 } ]

/-- `INITIAL_NODE_ID` of the source. -/
def INITIAL_NODE_ID : String := "movement"

/-- A blend sample with real-valued position, for the idealised real-number
semantics of the blend-weight formula (`Math.sqrt` idealised as `Real.sqrt`). -/
structure RSample where
  state : AnimationState
  x : ℝ
  z : ℝ

/-- `1 / (distance + 0.001)` with
`distance = Math.sqrt(dx * dx + dz * dz)`, `dx = x - position.x`,
`dz = z - position.z`. -/
noncomputable def rawWeight (x z : ℝ) (a : RSample) : ℝ :=
  1 / (Real.sqrt ((x - a.x) * (x - a.x) + (z - a.z) * (z - a.z)) + 0.001)

/-- The weights-`Map`/running-total loop of `updateBlendNodeWeights`,
idealised over `ℝ`: `weights.set(anim.state, weight)` (overwriting any
earlier binding of the same state) and `totalWeight += weight`. -/
noncomputable def weightsAux (x z : ℝ) :
    List RSample → List (AnimationState × ℝ) × ℝ → List (AnimationState × ℝ) × ℝ
  | [], acc => acc
  | a :: rest, acc =>
      weightsAux x z rest (mapSet acc.1 a.state (rawWeight x z a), acc.2 + rawWeight x z a)

/-- `updateBlendNodeWeights`, idealised over `ℝ`: the normalised blend-weight
map (`weight / totalWeight` per stored entry). -/
noncomputable def blendWeightsR (samples : List RSample) (x z : ℝ) :
    List (AnimationState × ℝ) :=
  (weightsAux x z samples ([], 0)).1.map fun p => (p.1, p.2 / (weightsAux x z samples ([], 0)).2)

/-- The node map the constructor builds from `ANIMATION_NODES`. -/
def codeNodesMap : List (String × AnimationNode) :=
  [ ("movement", AnimationNode.blend movementNode),
    ("JumpUp", AnimationNode.single { id := "JumpUp", state := .jumpUp, speed := 1, loop := false }),
    ("JumpFalling", AnimationNode.single { id := "JumpFalling", state := .jumpFalling, speed := 1, loop := true }) ]

/-- A full animation-group map: the two jump clips mid-cross-fade at weight
one half, every movement clip stopped at weight zero. -/
def midFadeGroups : List (AnimationState × GroupState) :=
  [ (.jumpUp, { weight := 1/2, playing := true }),
    (.jumpFalling, { weight := 1/2, playing := true }),
    (.idle, { weight := 0, playing := false }),
    (.walkForward, { weight := 0, playing := false }),
    (.walkBackward, { weight := 0, playing := false }),
    (.walkLeft, { weight := 0, playing := false }),
    (.walkRight, { weight := 0, playing := false }),
    (.runForward, { weight := 0, playing := false }),
    (.runBackward, { weight := 0, playing := false }),
    (.runLeft, { weight := 0, playing := false }),
    (.runRight, { weight := 0, playing := false }) ]

/-- A reachable-shaped state: current node `JumpFalling`, a cross-fade
`JumpUp → JumpFalling` halfway through. -/
def stMidFade : CtrlState :=
  { currentNodeId := "JumpFalling", nodes := codeNodesMap,
    animationGroups := midFadeGroups,
    activeBlend := some { fromState := .jumpUp, toState := .jumpFalling,
                          progress := 1/2, duration := 1 },
    blendWeights := [], transitions := [], vars := [] }

/-- A state with current node `JumpUp` and a zero-progress `JumpUp → JumpUp`
cross-fade, reproduced exactly by `playNode "JumpUp"`. -/
def stSelfFade : CtrlState :=
  { currentNodeId := "JumpUp", nodes := codeNodesMap,
    animationGroups := [ (.jumpUp, { weight := 1, playing := true }),
                         (.jumpFalling, { weight := 0, playing := false }),
                         (.idle, { weight := 0, playing := false }) ],
    activeBlend := some { fromState := .jumpUp, toState := .jumpUp,
                          progress := 0, duration := 5 },
    blendWeights := [], transitions := [], vars := [] }

/-- A state whose current node is the looping single `JumpFalling` with its
clip stopped, and one empty-condition transition out of it. -/
def stLoopStopped : CtrlState :=
  { currentNodeId := "JumpFalling", nodes := codeNodesMap,
    animationGroups := [ (.jumpFalling, { weight := 0, playing := false }) ],
    activeBlend := none, blendWeights := [],
    transitions := [ { fromNode := "JumpFalling", toNode := "movement",
                       conditions := [], crossFadeDuration := 0 } ],
    vars := [] }

/-- A state in the `movement` blend node with `isJumping = true`. -/
def stMovementJumping : CtrlState :=
  { currentNodeId := "movement", nodes := codeNodesMap,
    animationGroups := midFadeGroups,
    activeBlend := none, blendWeights := [],
    transitions := ANIMATION_TRANSITIONS,
    vars := [("isJumping", .bool true)] }

/-- A state with current node `JumpUp` (non-looping), its clip stopped. -/
def stJumpUpDone : CtrlState :=
  { currentNodeId := "JumpUp", nodes := codeNodesMap,
    animationGroups := [ (.jumpUp, { weight := 1, playing := false }) ],
    activeBlend := none, blendWeights := [],
    transitions := [ { fromNode := "JumpUp", toNode := "JumpFalling",
                       conditions := [], crossFadeDuration := 0 } ],
    vars := [] }

/-- A mid-fade state whose cross-fade target is the current single node
`JumpUp` and whose outgoing state `Idle` is not a node id. -/
def stFadeToJumpUp : CtrlState :=
  { currentNodeId := "JumpUp", nodes := codeNodesMap,
    animationGroups := midFadeGroups,
    activeBlend := some { fromState := .idle, toState := .jumpUp,
                          progress := 1/2, duration := 1 },
    blendWeights := [], transitions := [], vars := [] }

/-- Looking a key up in a map whose entries were adjusted at one key. -/
theorem mapLookup_map_ite {α β : Type} [DecidableEq α]
    (l : List (α × β)) (s k : α) (f : β → β) :
    mapLookup (l.map fun p => if p.1 = s then (p.1, f p.2) else p) k =
      if k = s then (mapLookup l k).map f else mapLookup l k := by
  induction l with
  | nil =>
      show (none : Option β) = if k = s then Option.map f none else none
      split <;> rfl
  | cons a rest ih =>
      obtain ⟨a1, a2⟩ := a
      rw [List.map_cons]
      by_cases h1 : a1 = s
      · rw [if_pos h1]
        by_cases h2 : a1 = k
        · have hk : k = s := by rw [← h2]; exact h1
          show (if a1 = k then some (f a2) else _) = _
          rw [if_pos h2, if_pos hk,
              show mapLookup ((a1, a2) :: rest) k = if a1 = k then some a2 else mapLookup rest k
                from rfl,
              if_pos h2]
          rfl
        · have hk : ¬ k = a1 := fun h => h2 h.symm
          show (if a1 = k then some (f a2) else mapLookup (rest.map _) k) = _
          rw [if_neg h2, ih,
              show mapLookup ((a1, a2) :: rest) k = if a1 = k then some a2 else mapLookup rest k
                from rfl,
              if_neg h2]
      · rw [if_neg h1]
        show (if a1 = k then some a2 else mapLookup (rest.map _) k) = _
        by_cases h2 : a1 = k
        · have hk : ¬ k = s := fun h => h1 ((h2.symm ▸ h : a1 = s))
          rw [if_pos h2,
              show mapLookup ((a1, a2) :: rest) k = if a1 = k then some a2 else mapLookup rest k
                from rfl,
              if_neg hk, if_pos h2]
        · rw [if_neg h2, ih,
              show mapLookup ((a1, a2) :: rest) k = if a1 = k then some a2 else mapLookup rest k
                from rfl,
              if_neg h2]

/-- `setWeight` seen through `mapLookup`. -/
theorem setWeight_lookup (s : AnimationState) (w : ℚ) (st : CtrlState)
    (k : AnimationState) :
    mapLookup (setWeight s w st).animationGroups k =
      if k = s then (mapLookup st.animationGroups k).map (fun g => { g with weight := w })
      else mapLookup st.animationGroups k :=
  mapLookup_map_ite st.animationGroups s k (fun g => { g with weight := w })

/-- `startGroup` seen through `mapLookup`. -/
theorem startGroup_lookup (s : AnimationState) (st : CtrlState)
    (k : AnimationState) :
    mapLookup (startGroup s st).animationGroups k =
      if k = s then (mapLookup st.animationGroups k).map (fun g => { g with playing := true })
      else mapLookup st.animationGroups k :=
  mapLookup_map_ite st.animationGroups s k (fun g => { g with playing := true })

/-- `stopGroup` seen through `mapLookup`. -/
theorem stopGroup_lookup (s : AnimationState) (st : CtrlState)
    (k : AnimationState) :
    mapLookup (stopGroup s st).animationGroups k =
      if k = s then (mapLookup st.animationGroups k).map (fun g => { g with playing := false })
      else mapLookup st.animationGroups k :=
  mapLookup_map_ite st.animationGroups s k (fun g => { g with playing := false })

theorem setWeight_nodes (s : AnimationState) (w : ℚ) (st : CtrlState) :
    (setWeight s w st).nodes = st.nodes := rfl

theorem stopGroup_nodes (s : AnimationState) (st : CtrlState) :
    (stopGroup s st).nodes = st.nodes := rfl

theorem setWeight_activeBlend (s : AnimationState) (w : ℚ) (st : CtrlState) :
    (setWeight s w st).activeBlend = st.activeBlend := rfl

theorem stopGroup_activeBlend (s : AnimationState) (st : CtrlState) :
    (stopGroup s st).activeBlend = st.activeBlend := rfl

/-- Claim C3: the cross-fade easing function `easeInOutQuad` satisfies
`ease(0) = 0`, `ease(1) = 1`, `ease(0.5) = 0.5`, and is point-symmetric about
`(0.5, 0.5)`: `ease(t) + ease(1 - t) = 1` for every `t ∈ [0, 1]`. -/
theorem easeInOutQuad_spec :
    easeInOutQuad 0 = 0 ∧ easeInOutQuad 1 = 1 ∧ easeInOutQuad 0.5 = 0.5 ∧
      ∀ t : ℚ, 0 ≤ t → t ≤ 1 → easeInOutQuad t + easeInOutQuad (1 - t) = 1 := by
  refine ⟨by norm_num [easeInOutQuad], by norm_num [easeInOutQuad],
    by norm_num [easeInOutQuad], fun t h0 h1 => ?_⟩
  unfold easeInOutQuad
  rcases lt_trichotomy t 0.5 with h | h | h
  · rw [if_pos h, if_neg (by linarith : ¬ (1 - t < 0.5))]
    ring
  · subst h
    norm_num
  · rw [if_neg (by linarith : ¬ (t < 0.5)),
        if_pos (by linarith : (1 - t < 0.5))]
    ring

/-- Witness for `easeInOutQuad_spec` at `t = 1/4`. -/
theorem easeInOutQuad_spec_witness :
    easeInOutQuad (1/4) + easeInOutQuad (1 - 1/4) = 1 :=
  easeInOutQuad_spec.2.2.2 (1/4) (by norm_num) (by norm_num)

/-- The `for` loop of `evaluateTransitions` returns `some tr` exactly when
`tr` appears in the list, fires, and no earlier entry fires. -/
theorem evaluateTransitionsAux_eq_some (st : CtrlState)
    (l : List AnimationTransition) (tr : AnimationTransition) :
    evaluateTransitionsAux st l = some tr ↔
      ∃ l1 l2, l = l1 ++ tr :: l2 ∧ transitionFires st tr = true ∧
        ∀ tr' ∈ l1, transitionFires st tr' = false := by
  induction l with
  | nil =>
      constructor
      · intro h
        exact absurd h (by simp [evaluateTransitionsAux])
      · rintro ⟨l1, l2, heq, -, -⟩
        exact absurd heq (by simp)
  | cons a rest ih =>
      unfold evaluateTransitionsAux
      by_cases h : transitionFires st a
      · rw [if_pos h]
        constructor
        · rintro ⟨rfl⟩
          exact ⟨[], rest, rfl, h, by simp⟩
        · rintro ⟨l1, l2, heq, hf, hall⟩
          cases l1 with
          | nil =>
              simp only [List.nil_append, List.cons.injEq] at heq
              rw [heq.1]
          | cons b l1' =>
              simp only [List.cons_append, List.cons.injEq] at heq
              have : transitionFires st a = false := heq.1 ▸ hall b (by simp)
              rw [this] at h
              exact absurd h (by simp)
      · rw [if_neg h]
        rw [ih]
        constructor
        · rintro ⟨l1, l2, heq, hf, hall⟩
          refine ⟨a :: l1, l2, by rw [heq]; rfl, hf, ?_⟩
          intro tr' htr'
          rcases List.mem_cons.mp htr' with rfl | hmem
          · exact Bool.not_eq_true _ ▸ (by simpa using h)
          · exact hall tr' hmem
        · rintro ⟨l1, l2, heq, hf, hall⟩
          cases l1 with
          | nil =>
              simp only [List.nil_append, List.cons.injEq] at heq
              rw [heq.1] at h
              exact absurd hf (by simpa using h)
          | cons b l1' =>
              simp only [List.cons_append, List.cons.injEq] at heq
              exact ⟨l1', l2, heq.2, hf, fun tr' htr' => hall tr' (by simp [htr'])⟩

/-- Claim C4: transition evaluation is first-match-wins in declaration order —
transitions whose `from` is not the current node never fire, and
`evaluateTransitions` returns `some tr` exactly when `tr` occurs in the
declared list, is satisfied, and every earlier declared transition is not
satisfied (so of several simultaneously satisfied transitions the earliest
declared one is returned). -/
theorem evaluateTransitions_first_match (st : CtrlState) (tr : AnimationTransition) :
    (∀ tr' : AnimationTransition, tr'.fromNode ≠ st.currentNodeId →
        transitionFires st tr' = false) ∧
      (evaluateTransitions st = some tr ↔
        ∃ l1 l2, st.transitions = l1 ++ tr :: l2 ∧ transitionFires st tr = true ∧
          ∀ tr' ∈ l1, transitionFires st tr' = false) := by
  constructor
  · intro tr' h
    unfold transitionFires
    rw [if_pos h]
  · exact evaluateTransitionsAux_eq_some st st.transitions tr

/-- Witness for `evaluateTransitions_first_match`: in the `movement` node with
`isJumping = true`, the evaluator returns the first declared transition. -/
theorem evaluateTransitions_first_match_witness :
    evaluateTransitions stMovementJumping = some
      { fromNode := "movement", toNode := "JumpUp",
        conditions := [ { variable' := "isJumping", operator := .eq, value := .bool true } ],
        crossFadeDuration := 0 } :=
  (evaluateTransitions_first_match stMovementJumping _).2.mpr
    ⟨[], _, rfl, rfl, by simp⟩

/-- The runtime invariant C5 implicitly relies on, as a decidable predicate:
`true` exactly when the current node is a *looping* single node whose
animation group exists and is stopped.  Looping Babylon groups never stop on
their own, so the per-tick loop never produces a state where this is true. -/
def currentLoopingStopped (st : CtrlState) : Bool :=
  match mapLookup st.nodes st.currentNodeId with
  | some (.single s) =>
      s.loop &&
        (match mapLookup st.animationGroups s.state with
         | some g => !g.playing
         | none => false)
  | _ => false

/-- Claim C5 counterexample: in a state whose current node is the *looping*
single node `JumpFalling` with its clip stopped, the empty-condition
transition out of it IS selected, although the claim says a looping clip
never satisfies it (`evaluateTransitions` never consults the `loop` flag). -/
theorem emptyCondition_looping_counterexample :
    mapLookup stLoopStopped.nodes stLoopStopped.currentNodeId =
      some (.single { id := "JumpFalling", state := .jumpFalling, speed := 1, loop := true }) ∧
      mapLookup stLoopStopped.animationGroups AnimationState.jumpFalling =
        some { weight := 0, playing := false } ∧
      evaluateTransitions stLoopStopped =
        some { fromNode := "JumpFalling", toNode := "movement",
               conditions := [], crossFadeDuration := 0 } :=
  ⟨rfl, rfl, rfl⟩

/-- Claim C5 (amended): a transition with an empty condition list is satisfied
exactly when its `from` is the current node and the current node is a Single
node whose animation group exists and is not playing; the `loop` flag is not
consulted, but under the runtime invariant that a looping current clip is
never found stopped (`currentLoopingStopped st = false`) this coincides with
natural completion of a non-looping clip, and it is never satisfied for a
Blend-node source. -/
theorem emptyCondition_fires_iff (st : CtrlState) (tr : AnimationTransition)
    (hempty : tr.conditions = [])
    (hinv : currentLoopingStopped st = false) :
    transitionFires st tr = true ↔
      (tr.fromNode = st.currentNodeId ∧
        ∃ s g, mapLookup st.nodes st.currentNodeId = some (.single s) ∧ s.loop = false ∧
          mapLookup st.animationGroups s.state = some g ∧ g.playing = false) := by
  unfold transitionFires
  by_cases hfrom : tr.fromNode = st.currentNodeId
  · rw [if_neg (not_not_intro hfrom), hempty]
    show (match mapLookup st.nodes st.currentNodeId with
          | some (.single s) =>
              match mapLookup st.animationGroups s.state with
              | some g => !g.playing
              | none => false
          | _ => false) = true ↔ _
    unfold currentLoopingStopped at hinv
    rcases hnode : mapLookup st.nodes st.currentNodeId with - | node
    · simp [hnode]
    · rcases node with s | b
      · rcases hg : mapLookup st.animationGroups s.state with - | g
        · simp [hnode, hg]
        · rw [hnode] at hinv
          have hinv0 : (s.loop &&
              match mapLookup st.animationGroups s.state with
              | some g => !g.playing
              | none => false) = false := hinv
          rw [hg] at hinv0
          have hinv' : (s.loop && !g.playing) = false := hinv0
          show (match mapLookup st.animationGroups s.state with
                | some g => !g.playing
                | none => false) = true ↔ _
          rw [hg]
          show (!g.playing) = true ↔ _
          constructor
          · intro hplay
            have hloop : s.loop = false := by
              rcases Bool.eq_false_or_eq_true s.loop with h | h
              · rw [h, hplay] at hinv'
                exact absurd hinv' (by simp)
              · exact h
            exact ⟨hfrom, s, g, rfl, hloop, hg, by simpa using hplay⟩
          · rintro ⟨-, s', g', hs', -, hg', hplay'⟩
            obtain rfl : s = s' := by simpa using hs'
            obtain rfl : g = g' := by rw [hg] at hg'; simpa using hg'
            simp [hplay']
      · simp [hnode]
  · rw [if_pos hfrom]
    simp only [Bool.false_eq_true, false_iff]
    rintro ⟨h, -⟩
    exact hfrom h

/-- Witness for `emptyCondition_fires_iff`: the non-looping `JumpUp` clip has
stopped, so the empty-condition transition out of `JumpUp` fires. -/
theorem emptyCondition_fires_iff_witness :
    transitionFires stJumpUpDone
      { fromNode := "JumpUp", toNode := "JumpFalling",
        conditions := [], crossFadeDuration := 0 } = true :=
  (emptyCondition_fires_iff stJumpUpDone _ rfl rfl).mpr
    ⟨rfl, { id := "JumpUp", state := .jumpUp, speed := 1, loop := false },
      { weight := 1, playing := false }, rfl, rfl, rfl, rfl⟩

/-- Claim C6: a condition on a variable that has never been set evaluates
false, and a non-empty condition list on a transition from the current node
is satisfied exactly when every one of its conditions evaluates true (AND
semantics). -/
theorem evaluateCondition_missing_and_conjunction (st : CtrlState)
    (c : TransitionCondition) (tr : AnimationTransition) :
    (mapLookup st.vars c.variable' = none → evaluateCondition st c = false) ∧
      (tr.conditions ≠ [] → tr.fromNode = st.currentNodeId →
        (transitionFires st tr = true ↔
          ∀ c' ∈ tr.conditions, evaluateCondition st c' = true)) := by
  constructor
  · intro h
    unfold evaluateCondition
    rw [h]
  · intro hne hfrom
    unfold transitionFires
    rw [if_neg (not_not_intro hfrom),
        if_neg (by simpa [List.isEmpty_iff] using hne)]
    exact List.all_eq_true

/-- Witness for `evaluateCondition_missing_and_conjunction`: a never-set
variable makes a condition false, and the satisfied `movement → JumpUp`
transition illustrates the AND characterization. -/
theorem evaluateCondition_missing_and_conjunction_witness :
    evaluateCondition stMovementJumping
      { variable' := "nosuch", operator := .eq, value := .bool true } = false ∧
      (transitionFires stMovementJumping
          { fromNode := "movement", toNode := "JumpUp",
            conditions := [ { variable' := "isJumping", operator := .eq,
                              value := .bool true } ],
            crossFadeDuration := 0 } = true ↔
        ∀ c' ∈ [( { variable' := "isJumping", operator := .eq,
                    value := .bool true } : TransitionCondition )],
          evaluateCondition stMovementJumping c' = true) :=
  ⟨(evaluateCondition_missing_and_conjunction stMovementJumping
      { variable' := "nosuch", operator := .eq, value := .bool true }
      { fromNode := "movement", toNode := "JumpUp",
        conditions := [ { variable' := "isJumping", operator := .eq,
                          value := .bool true } ],
        crossFadeDuration := 0 }).1 rfl,
   (evaluateCondition_missing_and_conjunction stMovementJumping
      { variable' := "nosuch", operator := .eq, value := .bool true }
      { fromNode := "movement", toNode := "JumpUp",
        conditions := [ { variable' := "isJumping", operator := .eq,
                          value := .bool true } ],
        crossFadeDuration := 0 }).2 (by simp) rfl⟩

/-- Whether an `Except` result is a success. -/
def isOkE {α : Type} : Except String α → Bool
  | .ok _ => true
  | .error _ => false

/-- Looking a key up after `mapSet`. -/
theorem mapLookup_mapSet {α β : Type} [DecidableEq α]
    (m : List (α × β)) (k k' : α) (v : β) :
    mapLookup (mapSet m k v) k' = if k' = k then some v else mapLookup m k' := by
  induction m with
  | nil =>
      show (if k = k' then some v else none) = _
      by_cases h : k' = k
      · rw [if_pos h.symm, if_pos h]
      · rw [if_neg (fun hh => h hh.symm), if_neg h]
        rfl
  | cons a rest ih =>
      obtain ⟨a1, a2⟩ := a
      show mapLookup (if a1 = k then (a1, v) :: rest else (a1, a2) :: mapSet rest k v) k' = _
      by_cases h1 : a1 = k
      · rw [if_pos h1]
        show (if a1 = k' then some v else mapLookup rest k') = _
        by_cases h2 : a1 = k'
        · rw [if_pos h2, if_pos (h2 ▸ h1 : k' = k).symm.symm]
        · have : ¬ k' = k := fun hh => h2 (h1.trans hh.symm)
          rw [if_neg h2, if_neg this]
          show _ = mapLookup ((a1, a2) :: rest) k'
          rw [show mapLookup ((a1, a2) :: rest) k' =
                if a1 = k' then some a2 else mapLookup rest k' from rfl,
              if_neg h2]
      · rw [if_neg h1]
        show (if a1 = k' then some a2 else mapLookup (mapSet rest k v) k') = _
        by_cases h2 : a1 = k'
        · have : ¬ k' = k := fun hh => h1 (h2.trans hh)
          rw [if_pos h2, if_neg this,
              show mapLookup ((a1, a2) :: rest) k' =
                if a1 = k' then some a2 else mapLookup rest k' from rfl,
              if_pos h2]
        · rw [if_neg h2, ih,
              show mapLookup ((a1, a2) :: rest) k' =
                if a1 = k' then some a2 else mapLookup rest k' from rfl,
              if_neg h2]

/-- Keys present after the constructor's node-insertion loop. -/
theorem buildNodesMap_keys (l : List AnimationNode) (acc m : List (String × AnimationNode))
    (h : buildNodesMap l acc = .ok m) (k : String) :
    (mapLookup m k).isSome = true ↔
      ((mapLookup acc k).isSome = true ∨ k ∈ l.map AnimationNode.nid) := by
  induction l generalizing acc with
  | nil =>
      obtain rfl : acc = m := by
        simpa [buildNodesMap] using h
      simp
  | cons n rest ih =>
      unfold buildNodesMap at h
      by_cases hdup : (mapLookup acc n.nid).isSome = true
      · rw [if_pos hdup] at h
        exact absurd h (by simp)
      · rw [if_neg hdup] at h
        rw [ih _ h]
        have : ∀ b, (mapLookup (mapSet acc n.nid n) k).isSome = b ↔
            ((if k = n.nid then some n else mapLookup acc k).isSome = b) := by
          intro b
          rw [mapLookup_mapSet]
        rw [this true]
        by_cases hk : k = n.nid
        · simp [hk]
        · simp only [if_neg hk, List.map_cons, List.mem_cons]
          constructor
          · rintro (hs | hmem)
            · exact Or.inl hs
            · exact Or.inr (Or.inr hmem)
          · rintro (hs | (hid | hmem))
            · exact Or.inl hs
            · exact absurd hid hk
            · exact Or.inr hmem

/-- The constructor's node-insertion loop succeeds exactly when the incoming
ids are duplicate-free and none collides with the accumulator. -/
theorem buildNodesMap_ok_iff (l : List AnimationNode) (acc : List (String × AnimationNode)) :
    isOkE (buildNodesMap l acc) = true ↔
      ((l.map AnimationNode.nid).Nodup ∧
        ∀ i ∈ l.map AnimationNode.nid, (mapLookup acc i).isSome = false) := by
  induction l generalizing acc with
  | nil => simp [buildNodesMap, isOkE]
  | cons n rest ih =>
      unfold buildNodesMap
      by_cases hdup : (mapLookup acc n.nid).isSome = true
      · rw [if_pos hdup]
        simp only [isOkE, Bool.false_eq_true, false_iff, not_and]
        intro _ hall
        have := hall n.nid (by simp)
        rw [this] at hdup
        exact absurd hdup (by simp)
      · rw [if_neg hdup, ih]
        have hnd : (mapLookup acc n.nid).isSome = false := by
          simpa using hdup
        constructor
        · rintro ⟨hnodup, hall⟩
          have hmemn : n.nid ∉ rest.map AnimationNode.nid := by
            intro hmem
            have := hall n.nid hmem
            rw [mapLookup_mapSet, if_pos rfl] at this
            exact absurd this (by simp)
          refine ⟨by simp [List.nodup_cons, hmemn, hnodup], ?_⟩
          intro i hi
          rw [List.map_cons] at hi
          rcases List.mem_cons.mp hi with rfl | hmem
          · exact hnd
          · have := hall i hmem
            rw [mapLookup_mapSet] at this
            by_cases hik : i = n.nid
            · rw [if_pos hik] at this
              exact absurd this (by simp)
            · rwa [if_neg hik] at this
        · rintro ⟨hnodup, hall⟩
          have hmemn : n.nid ∉ rest.map AnimationNode.nid :=
            (List.nodup_cons.mp (by simpa using hnodup)).1
          refine ⟨(List.nodup_cons.mp (by simpa using hnodup)).2, ?_⟩
          intro i hi
          rw [mapLookup_mapSet]
          by_cases hik : i = n.nid
          · exact absurd (hik ▸ hi) hmemn
          · rw [if_neg hik]
            exact hall i (by simp [hi])

/-- The constructor's transition-validation loop succeeds exactly when every
transition's `from` and `to` are keys of the node map. -/
theorem checkTransitions_ok_iff (m : List (String × AnimationNode))
    (ts : List AnimationTransition) :
    isOkE (checkTransitions m ts) = true ↔
      ∀ tr ∈ ts, (mapLookup m tr.fromNode).isSome = true ∧
        (mapLookup m tr.toNode).isSome = true := by
  induction ts with
  | nil => simp [checkTransitions, isOkE]
  | cons tr rest ih =>
      unfold checkTransitions
      by_cases hf : (mapLookup m tr.fromNode).isSome = true
      · rw [if_neg (by simp [hf])]
        by_cases ht : (mapLookup m tr.toNode).isSome = true
        · rw [if_neg (by simp [ht]), ih]
          constructor
          · intro hall
            intro tr' htr'
            rcases List.mem_cons.mp htr' with rfl | hmem
            · exact ⟨hf, ht⟩
            · exact hall tr' hmem
          · intro hall tr' htr'
            exact hall tr' (by simp [htr'])
        · rw [if_pos (by simpa using ht)]
          simp only [isOkE, Bool.false_eq_true, false_iff]
          intro hall
          exact ht (hall tr (by simp)).2
      · rw [if_pos (by simpa using hf)]
        simp only [isOkE, Bool.false_eq_true, false_iff]
        intro hall
        exact hf (hall tr (by simp)).1

/-- Claim C7: construction fails exactly when the graph data is malformed —
a duplicate node id, a transition whose `from` or `to` references an unknown
node, or an unknown initial node id — and when construction succeeds the
current node id equals the designated initial node id. -/
theorem construct_validates (ns : List AnimationNode)
    (ts : List AnimationTransition) (initialId : String) :
    (isOkE (construct ns ts initialId) = true ↔
      ((ns.map AnimationNode.nid).Nodup ∧
        (∀ tr ∈ ts, tr.fromNode ∈ ns.map AnimationNode.nid ∧
          tr.toNode ∈ ns.map AnimationNode.nid) ∧
        initialId ∈ ns.map AnimationNode.nid)) ∧
      ∀ st, construct ns ts initialId = .ok st → st.currentNodeId = initialId := by
  rcases hb : buildNodesMap ns [] with e | m
  · have hnodup : ¬ (ns.map AnimationNode.nid).Nodup := by
      intro hnd
      have h2 := (buildNodesMap_ok_iff ns []).mpr ⟨hnd, by simp [mapLookup]⟩
      rw [hb] at h2
      exact absurd h2 (by simp [isOkE])
    constructor
    · simp only [construct, hb, isOkE, Bool.false_eq_true, false_iff]
      rintro ⟨hnd, -, -⟩
      exact hnodup hnd
    · intro st h
      simp only [construct, hb] at h
      exact absurd h (by simp)
  · have hkeys : ∀ k, (mapLookup m k).isSome = true ↔ k ∈ ns.map AnimationNode.nid := by
      intro k
      rw [buildNodesMap_keys ns [] m hb k]
      simp [mapLookup]
    have hnodup : (ns.map AnimationNode.nid).Nodup := by
      have h2 : isOkE (buildNodesMap ns []) = true := by rw [hb]; rfl
      exact ((buildNodesMap_ok_iff ns []).mp h2).1
    rcases hc : checkTransitions m ts with e | u
    · have htrans : ¬ ∀ tr ∈ ts, tr.fromNode ∈ ns.map AnimationNode.nid ∧
          tr.toNode ∈ ns.map AnimationNode.nid := by
        intro hall
        have h2 := (checkTransitions_ok_iff m ts).mpr
          (fun tr htr => ⟨(hkeys tr.fromNode).mpr (hall tr htr).1,
            (hkeys tr.toNode).mpr (hall tr htr).2⟩)
        rw [hc] at h2
        exact absurd h2 (by simp [isOkE])
      constructor
      · simp only [construct, hb, hc, isOkE, Bool.false_eq_true, false_iff]
        rintro ⟨-, hall, -⟩
        exact htrans hall
      · intro st h
        simp only [construct, hb, hc] at h
        exact absurd h (by simp)
    · have htrans : ∀ tr ∈ ts, tr.fromNode ∈ ns.map AnimationNode.nid ∧
          tr.toNode ∈ ns.map AnimationNode.nid := by
        have h2 : isOkE (checkTransitions m ts) = true := by rw [hc]; rfl
        intro tr htr
        have h3 := (checkTransitions_ok_iff m ts).mp h2 tr htr
        exact ⟨(hkeys tr.fromNode).mp h3.1, (hkeys tr.toNode).mp h3.2⟩
      by_cases hinit : (mapLookup m initialId).isSome = false
      · have hninit : initialId ∉ ns.map AnimationNode.nid := by
          intro hmem
          rw [(hkeys initialId).mpr hmem] at hinit
          exact absurd hinit (by simp)
        constructor
        · simp only [construct, hb, hc, hinit, if_true, isOkE,
            Bool.false_eq_true, false_iff]
          rintro ⟨-, -, hmem⟩
          exact hninit hmem
        · intro st h
          simp only [construct, hb, hc, hinit, if_true] at h
          exact absurd h (by simp)
      · constructor
        · simp only [construct, hb, hc, if_neg hinit, isOkE, true_iff]
          refine ⟨hnodup, htrans, ?_⟩
          rw [← hkeys initialId]
          rcases h4 : mapLookup m initialId with - | v
          · rw [h4] at hinit
            exact absurd rfl hinit
          · rfl
        · intro st h
          simp only [construct, hb, hc, if_neg hinit] at h
          obtain rfl : _ = st := by simpa using h
          rfl

/-- The controller state the constructor produces from the repository's
graph data. -/
def codeCtrlState : CtrlState :=
  { currentNodeId := "movement", nodes := codeNodesMap, animationGroups := [],
    activeBlend := none, blendWeights := [],
    transitions := ANIMATION_TRANSITIONS, vars := [] }

/-- Witness for `construct_validates` at the repository's graph data:
construction succeeds and the current node id is the initial id. -/
theorem construct_validates_witness :
    isOkE (construct ANIMATION_NODES ANIMATION_TRANSITIONS INITIAL_NODE_ID) = true ∧
      codeCtrlState.currentNodeId = INITIAL_NODE_ID :=
  ⟨(construct_validates ANIMATION_NODES ANIMATION_TRANSITIONS INITIAL_NODE_ID).1.mpr
      ⟨by simp [ANIMATION_NODES, AnimationNode.nid, movementNode],
        by intro tr htr
           simp only [ANIMATION_TRANSITIONS, List.mem_cons, List.not_mem_nil, or_false] at htr
           rcases htr with rfl | rfl | rfl <;>
             simp [ANIMATION_NODES, AnimationNode.nid, movementNode],
        by simp [ANIMATION_NODES, AnimationNode.nid, movementNode, INITIAL_NODE_ID]⟩,
    (construct_validates ANIMATION_NODES ANIMATION_TRANSITIONS INITIAL_NODE_ID).2
      codeCtrlState rfl⟩

/-- Claim C10: when the current node is a Blend node, `evaluateTransitions`
never returns a transition with an empty condition list — the empty-condition
completion check applies only to Single nodes, so such a transition can never
fire from a Blend node. -/
theorem blend_source_no_auto_transition (st : CtrlState) (tr : AnimationTransition)
    (b : AnimationBlendNode)
    (hnode : mapLookup st.nodes st.currentNodeId = some (.blend b))
    (h : evaluateTransitions st = some tr) :
    tr.conditions ≠ [] := by
  intro hempty
  obtain ⟨l1, l2, -, hf, -⟩ := (evaluateTransitionsAux_eq_some st st.transitions tr).mp h
  unfold transitionFires at hf
  by_cases hfrom : tr.fromNode ≠ st.currentNodeId
  · rw [if_pos hfrom] at hf
    exact absurd hf (by simp)
  · rw [if_neg hfrom, hempty] at hf
    simp only [List.isEmpty_nil, if_true, hnode] at hf
    exact absurd hf (by simp)

/-- Witness for `blend_source_no_auto_transition`: in the `movement` blend
node the returned transition indeed has conditions. -/
theorem blend_source_no_auto_transition_witness :
    ({ fromNode := "movement", toNode := "JumpUp",
       conditions := [ { variable' := "isJumping", operator := .eq, value := .bool true } ],
       crossFadeDuration := 0 } : AnimationTransition).conditions ≠ [] :=
  blend_source_no_auto_transition stMovementJumping _ movementNode rfl rfl

/-- Claim C8 (amended): given the constructor-established invariant that the
current node id is a known node, `playNode` throws exactly when `nodeId` is
unknown, the controller state is unchanged on that throw, and a call
targeting the current node with no active cross-fade returns with no state
change.  (The converse of the no-op clause fails — see the counterexample:
with an active cross-fade targeting the current node the call may also
reproduce the state exactly.) -/
theorem playNode_error_and_noop (msqrt : ℚ → ℚ) (nodeId : String) (d : ℚ)
    (st : CtrlState) (hcur : (mapLookup st.nodes st.currentNodeId).isSome = true) :
    ((playNode msqrt nodeId d st).2.isSome = true ↔ mapLookup st.nodes nodeId = none) ∧
      ((playNode msqrt nodeId d st).2.isSome = true → (playNode msqrt nodeId d st).1 = st) ∧
      (st.currentNodeId = nodeId ∧ st.activeBlend = none →
        playNode msqrt nodeId d st = (st, none)) := by
  unfold playNode
  by_cases hno : st.currentNodeId = nodeId ∧ st.activeBlend = none
  · rw [if_pos hno]
    refine ⟨⟨fun h => absurd h (by simp), fun h => ?_⟩, by simp, fun _ => rfl⟩
    rw [hno.1, h] at hcur
    exact absurd hcur (by simp)
  · rw [if_neg hno]
    rcases hl : mapLookup st.nodes nodeId with - | node
    · exact ⟨by simp, fun _ => rfl, fun hcond => absurd hcond hno⟩
    · exact ⟨⟨fun h => absurd h (by simp), fun h => absurd h (by simp)⟩,
        fun h => absurd h (by simp), fun hcond => absurd hcond hno⟩

/-- Witness for `playNode_error_and_noop`: an unknown node id throws and the
state is unchanged. -/
theorem playNode_error_and_noop_witness :
    (playNode id "bogus" 0 stMovementJumping).2.isSome = true ∧
      (playNode id "bogus" 0 stMovementJumping).1 = stMovementJumping :=
  ⟨(playNode_error_and_noop id "bogus" 0 stMovementJumping rfl).1.mpr rfl,
    (playNode_error_and_noop id "bogus" 0 stMovementJumping rfl).2.1
      ((playNode_error_and_noop id "bogus" 0 stMovementJumping rfl).1.mpr rfl)⟩

/-- Claim C8 counterexample: `playNode` targeting the already-current node
while a cross-fade IS active can also return with no state change — the
finalize-then-restart path reproduces the state exactly — so "no-op exactly
when `nodeId` is current and no cross-fade is active" fails. -/
theorem playNode_noop_counterexample :
    stSelfFade.activeBlend ≠ none ∧
      stSelfFade.currentNodeId = "JumpUp" ∧
      playNode id "JumpUp" 5 stSelfFade = (stSelfFade, none) :=
  ⟨by simp [stSelfFade], rfl, rfl⟩

/-- The state after `startBlendCrossFade` to the `movement` node is invoked
while the `JumpUp → JumpFalling` cross-fade of `stMidFade` is still active. -/
def stAfterSecondStart : CtrlState := (startBlendCrossFade movementNode (1/2) stMidFade).1

/-- `stAfterSecondStart` after one `updateCrossFade` tick of a quarter
second. -/
def stAfterTick : CtrlState := (updateCrossFade (1/4) stAfterSecondStart).1

/-- The `BlendInfo` of the second cross-fade after its progress is advanced
by the quarter-second tick. -/
def stepBlendInfo : BlendInfo :=
  { fromState := .jumpFalling, toState := .idle,
    progress := 0 + 1/4 / (1/2), duration := 1/2 }

/-- `stAfterSecondStart` with the new cross-fade's progress advanced by the
quarter-second tick (the intermediate state `updateCrossFade` builds). -/
def stAfterSecondStep : CtrlState :=
  { stAfterSecondStart with activeBlend := some stepBlendInfo }

/-- Claim C1 (amended): `startCrossFade` starting a new cross-fade while one
is active first finalizes the prior one — `activeBlend` cleared, the prior
target snapped to weight 1, the recorded outgoing clip stopped and zeroed —
and then proceeds exactly as from the finalized state; `startBlendCrossFade`,
by contrast, performs no such finalization (see the counterexample), so the
three-or-more-clips bound does not hold there.  The hypotheses place the
controller in the configuration the source produces: a single current node,
a fade whose recorded outgoing state is not a node id, distinct endpoint
states, and animation groups present for both endpoints. -/
theorem startCrossFade_finalizes_first (st : CtrlState) (b : BlendInfo)
    (t : AnimationState) (d : ℚ)
    (hb : st.activeBlend = some b)
    (hcur : ∃ s, mapLookup st.nodes st.currentNodeId = some (.single s))
    (hprev : mapLookup st.nodes b.fromState.str = none)
    (hne : b.fromState ≠ b.toState)
    (hgt : (mapLookup st.animationGroups b.toState).isSome = true)
    (hgf : (mapLookup st.animationGroups b.fromState).isSome = true) :
    (completeCrossFade st).2 = none ∧
      (completeCrossFade st).1.activeBlend = none ∧
      (∃ g, mapLookup (completeCrossFade st).1.animationGroups b.toState = some g ∧
        g.weight = 1) ∧
      (∃ g, mapLookup (completeCrossFade st).1.animationGroups b.fromState = some g ∧
        g.weight = 0 ∧ g.playing = false) ∧
      startCrossFade t d st = startCrossFade t d (completeCrossFade st).1 := by
  obtain ⟨s, hs⟩ := hcur
  obtain ⟨gt', hgt'⟩ := Option.isSome_iff_exists.mp hgt
  obtain ⟨gf', hgf'⟩ := Option.isSome_iff_exists.mp hgf
  have hcomp : completeCrossFade st =
      ({ setWeight b.fromState 0 (stopGroup b.fromState (setWeight b.toState 1 st)) with
          activeBlend := none }, none) := by
    unfold completeCrossFade
    rw [hb]
    simp only [hs, setWeight_nodes, hprev]
  have hne' : ¬ b.toState = b.fromState := fun h => hne h.symm
  refine ⟨by rw [hcomp], by rw [hcomp], ?_, ?_, ?_⟩
  · rw [hcomp]
    show ∃ g, mapLookup (setWeight b.fromState 0
        (stopGroup b.fromState (setWeight b.toState 1 st))).animationGroups b.toState =
        some g ∧ g.weight = 1
    rw [setWeight_lookup, if_neg hne', stopGroup_lookup, if_neg hne',
        setWeight_lookup, if_pos rfl, hgt']
    exact ⟨_, rfl, rfl⟩
  · rw [hcomp]
    show ∃ g, mapLookup (setWeight b.fromState 0
        (stopGroup b.fromState (setWeight b.toState 1 st))).animationGroups b.fromState =
        some g ∧ g.weight = 0 ∧ g.playing = false
    rw [setWeight_lookup, if_pos rfl, stopGroup_lookup, if_pos rfl,
        setWeight_lookup, if_neg hne, hgf']
    exact ⟨_, rfl, rfl, rfl⟩
  · have h1 : startCrossFade t d st = startCrossFadeCore t d (completeCrossFade st).1 := by
      unfold startCrossFade
      rw [hb]
      simp only [Option.isSome_some, if_true, hcomp]
    have h2 : startCrossFade t d (completeCrossFade st).1 =
        startCrossFadeCore t d (completeCrossFade st).1 := by
      unfold startCrossFade
      rw [hcomp]
      simp only [Option.isSome_none, Bool.false_eq_true, if_false]
    rw [h1, h2]

/-- Witness for `startCrossFade_finalizes_first` at `stFadeToJumpUp`. -/
theorem startCrossFade_finalizes_first_witness :
    (completeCrossFade stFadeToJumpUp).2 = none ∧
      startCrossFade .jumpFalling 1 stFadeToJumpUp =
        startCrossFade .jumpFalling 1 (completeCrossFade stFadeToJumpUp).1 :=
  ⟨(startCrossFade_finalizes_first stFadeToJumpUp
      { fromState := .idle, toState := .jumpUp, progress := 1/2, duration := 1 }
      .jumpFalling 1 rfl
      ⟨{ id := "JumpUp", state := .jumpUp, speed := 1, loop := false }, rfl⟩
      rfl (by simp) rfl rfl).1,
    (startCrossFade_finalizes_first stFadeToJumpUp
      { fromState := .idle, toState := .jumpUp, progress := 1/2, duration := 1 }
      .jumpFalling 1 rfl
      ⟨{ id := "JumpUp", state := .jumpUp, speed := 1, loop := false }, rfl⟩
      rfl (by simp) rfl rfl).2.2.2.2⟩

/-- Claim C1 counterexample: starting a cross-fade to the `movement` blend
node via `startBlendCrossFade` while the `JumpUp → JumpFalling` cross-fade is
active does NOT finalize the prior fade — the prior target `JumpFalling`
keeps weight one half instead of being snapped to 1, the prior outgoing clip
`JumpUp` keeps weight one half and keeps playing instead of being zeroed and
stopped — and a new `BlendInfo` is created regardless; one tick later the
three clips `Idle`, `JumpUp` and `JumpFalling` all hold weight one half
simultaneously, so a reachable state has three clips with non-zero
cross-fade-attributed weight. -/
theorem startBlendCrossFade_counterexample :
    stMidFade.activeBlend =
        some { fromState := .jumpUp, toState := .jumpFalling, progress := 1/2, duration := 1 } ∧
      stAfterSecondStart.activeBlend =
        some { fromState := .jumpFalling, toState := .idle, progress := 0, duration := 1/2 } ∧
      mapLookup stAfterSecondStart.animationGroups .jumpFalling =
        some { weight := 1/2, playing := true } ∧
      (mapLookup stAfterSecondStart.animationGroups .jumpFalling).map GroupState.weight ≠
        some 1 ∧
      mapLookup stAfterSecondStart.animationGroups .jumpUp =
        some { weight := 1/2, playing := true } ∧
      (mapLookup stAfterSecondStart.animationGroups .jumpUp).map GroupState.weight ≠
        some 0 ∧
      (mapLookup stAfterTick.animationGroups .idle).map GroupState.weight = some (1/2) ∧
      (mapLookup stAfterTick.animationGroups .jumpUp).map GroupState.weight = some (1/2) ∧
      (mapLookup stAfterTick.animationGroups .jumpFalling).map GroupState.weight =
        some (1/2) := by
  have hTick : stAfterTick = updateCrossFadeWeights stAfterSecondStep := by
    show (updateCrossFade (1/4) stAfterSecondStart).1 = _
    have h1 : updateCrossFade (1/4) stAfterSecondStart =
        (if (0 : ℚ) + 1/4 / (1/2) ≥ 1 then completeCrossFade stAfterSecondStep
         else (updateCrossFadeWeights stAfterSecondStep, none)) := rfl
    rw [h1, if_neg (by norm_num : ¬ ((0 : ℚ) + 1/4 / (1/2) ≥ 1))]
  refine ⟨rfl, rfl, rfl, ?_, rfl, ?_, ?_, ?_, ?_⟩
  · rw [show mapLookup stAfterSecondStart.animationGroups .jumpFalling =
        some { weight := 1/2, playing := true } from rfl]
    simp only [ne_eq, Option.map_some, Option.some.injEq]
    norm_num
  · rw [show mapLookup stAfterSecondStart.animationGroups .jumpUp =
        some { weight := 1/2, playing := true } from rfl]
    simp only [ne_eq, Option.map_some, Option.some.injEq]
    norm_num
  · rw [hTick]
    show some (easeInOutQuad (0 + 1/4 / (1/2))) = some ((1 : ℚ)/2)
    exact congrArg some (by norm_num [easeInOutQuad])
  · rw [hTick]
    rfl
  · rw [hTick]
    show some (1 - easeInOutQuad (0 + 1/4 / (1/2))) = some ((1 : ℚ)/2)
    exact congrArg some (by norm_num [easeInOutQuad])

/-- Every raw inverse-distance weight is strictly positive. -/
theorem rawWeight_pos (x z : ℝ) (a : RSample) : 0 < rawWeight x z a := by
  unfold rawWeight
  have h := Real.sqrt_nonneg ((x - a.x) * (x - a.x) + (z - a.z) * (z - a.z))
  positivity

/-- Every raw inverse-distance weight is at most `1 / 0.001`. -/
theorem rawWeight_le (x z : ℝ) (a : RSample) : rawWeight x z a ≤ 1 / 0.001 := by
  unfold rawWeight
  have h := Real.sqrt_nonneg ((x - a.x) * (x - a.x) + (z - a.z) * (z - a.z))
  have h2 : (0.001 : ℝ) ≤ Real.sqrt ((x - a.x) * (x - a.x) + (z - a.z) * (z - a.z)) + 0.001 := by
    linarith
  exact one_div_le_one_div_of_le (by norm_num) h2

/-- The raw weight of a sample at its own position is exactly `1 / 0.001`. -/
theorem rawWeight_self (s : RSample) : rawWeight s.x s.z s = 1 / 0.001 := by
  unfold rawWeight
  rw [show (s.x - s.x) * (s.x - s.x) + (s.z - s.z) * (s.z - s.z) = 0 by ring,
      Real.sqrt_zero, zero_add]

/-- The running total of the `updateBlendNodeWeights` loop is the initial
total plus the sum of all raw weights — duplicates included. -/
theorem weightsAux_total (x z : ℝ) (l : List RSample)
    (m : List (AnimationState × ℝ)) (t : ℝ) :
    (weightsAux x z l (m, t)).2 = t + (l.map (rawWeight x z)).sum := by
  induction l generalizing m t with
  | nil => simp [weightsAux]
  | cons a rest ih =>
      show (weightsAux x z rest (mapSet m a.state (rawWeight x z a), t + rawWeight x z a)).2 = _
      rw [ih]
      simp [List.sum_cons]
      ring

/-- Looking a key up in an appended map. -/
theorem mapLookup_append {α β : Type} [DecidableEq α]
    (m1 m2 : List (α × β)) (k : α) :
    mapLookup (m1 ++ m2) k =
      match mapLookup m1 k with
      | some v => some v
      | none => mapLookup m2 k := by
  induction m1 with
  | nil => rfl
  | cons a rest ih =>
      obtain ⟨a1, a2⟩ := a
      rw [show mapLookup (((a1, a2) :: rest) ++ m2) k =
            (if a1 = k then some a2 else mapLookup (rest ++ m2) k) from rfl,
          show mapLookup ((a1, a2) :: rest) k =
            (if a1 = k then some a2 else mapLookup rest k) from rfl]
      by_cases h : a1 = k
      · rw [if_pos h, if_pos h]
      · rw [if_neg h, if_neg h, ih]

/-- `Map.set` on an absent key appends. -/
theorem mapSet_absent {α β : Type} [DecidableEq α]
    (m : List (α × β)) (k : α) (v : β) (h : mapLookup m k = none) :
    mapSet m k v = m ++ [(k, v)] := by
  induction m with
  | nil => rfl
  | cons a rest ih =>
      obtain ⟨a1, a2⟩ := a
      have h' : (if a1 = k then some a2 else mapLookup rest k) = none := h
      by_cases h1 : a1 = k
      · rw [if_pos h1] at h'
        exact absurd h' (by simp)
      · rw [if_neg h1] at h'
        show (if a1 = k then (a1, v) :: rest else (a1, a2) :: mapSet rest k v) = _
        rw [if_neg h1, ih h']
        rfl

/-- With pairwise-distinct sample states that avoid the accumulator, the
weights map built by the `updateBlendNodeWeights` loop is the accumulator
followed by one entry per sample. -/
theorem weightsAux_fst (x z : ℝ) (l : List RSample)
    (m : List (AnimationState × ℝ)) (t : ℝ)
    (hnodup : (l.map RSample.state).Nodup)
    (hfresh : ∀ a ∈ l, mapLookup m a.state = none) :
    (weightsAux x z l (m, t)).1 = m ++ l.map (fun a => (a.state, rawWeight x z a)) := by
  induction l generalizing m t with
  | nil => simp [weightsAux]
  | cons a rest ih =>
      show (weightsAux x z rest (mapSet m a.state (rawWeight x z a), t + rawWeight x z a)).1 = _
      rw [mapSet_absent m a.state _ (hfresh a (by simp))]
      rw [List.map_cons] at hnodup
      have hnodup' := (List.nodup_cons.mp hnodup).2
      have hanotin := (List.nodup_cons.mp hnodup).1
      rw [ih _ _ hnodup' ?_]
      · simp
      · intro b hb
        rw [mapLookup_append]
        rw [hfresh b (by simp [hb])]
        show mapLookup [(a.state, rawWeight x z a)] b.state = none
        have hne : ¬ a.state = b.state := by
          intro he
          exact hanotin (he ▸ List.mem_map_of_mem RSample.state hb)
        show (if a.state = b.state then _ else (none : Option ℝ)) = none
        rw [if_neg hne]

/-- Dividing each element of a real list by a constant divides the sum. -/
theorem list_sum_div (l : List ℝ) (c : ℝ) :
    (l.map (fun v => v / c)).sum = l.sum / c := by
  induction l with
  | nil => simp
  | cons a rest ih =>
      simp [List.sum_cons, ih, add_div]

/-- With pairwise-distinct sample states, the idealised
`updateBlendNodeWeights` assigns each sample exactly the normalised
inverse-distance weight of the formula. -/
theorem blendWeightsR_eq (samples : List RSample) (x z : ℝ)
    (hnodup : (samples.map RSample.state).Nodup) :
    blendWeightsR samples x z =
      samples.map (fun a =>
        (a.state, rawWeight x z a / (samples.map (rawWeight x z)).sum)) := by
  unfold blendWeightsR
  rw [weightsAux_fst x z samples [] 0 hnodup (by intro a ha; rfl),
      weightsAux_total x z samples [] 0]
  simp [List.map_map, Function.comp]

/-- Claim C2 (amended, restricted to blend nodes whose samples carry
pairwise-distinct states): for every non-empty sample list with
duplicate-free states and every 2D input, `updateBlendNodeWeights` assigns
sample `i` the weight `(1/(d_i+0.001)) / Σ_j (1/(d_j+0.001))` with `d_i` the
Euclidean distance from the input to sample `i`'s position, and the
resulting weights sum to 1.  (With duplicate states the stored weights sum
to strictly less than 1 — see the counterexample.) -/
theorem updateBlendNodeWeights_formula_and_sum (samples : List RSample) (x z : ℝ)
    (hne : samples ≠ [])
    (hnodup : (samples.map RSample.state).Nodup) :
    blendWeightsR samples x z =
      samples.map (fun a =>
        (a.state, rawWeight x z a / (samples.map (rawWeight x z)).sum)) ∧
      ((blendWeightsR samples x z).map Prod.snd).sum = 1 := by
  refine ⟨blendWeightsR_eq samples x z hnodup, ?_⟩
  rw [blendWeightsR_eq samples x z hnodup]
  have hTpos : 0 < (samples.map (rawWeight x z)).sum := by
    apply List.sum_pos
    · intro w hw
      obtain ⟨a, -, rfl⟩ := List.mem_map.mp hw
      exact rawWeight_pos x z a
    · simpa using hne
  rw [List.map_map]
  have : (Prod.snd ∘ fun a =>
      (a.state, rawWeight x z a / (samples.map (rawWeight x z)).sum)) =
      fun a => rawWeight x z a / (samples.map (rawWeight x z)).sum := rfl
  rw [this, show (fun a => rawWeight x z a / (samples.map (rawWeight x z)).sum) =
      ((fun v => v / (samples.map (rawWeight x z)).sum) ∘ rawWeight x z) from rfl,
      ← List.map_map, list_sum_div]
  exact div_self (ne_of_gt hTpos)

/-- Witness for `updateBlendNodeWeights_formula_and_sum` at the two-sample
blend `idle@(0,0), walkForward@(0,1)` and input `(0,0)`. -/
theorem updateBlendNodeWeights_formula_and_sum_witness :
    ((blendWeightsR [⟨.idle, 0, 0⟩, ⟨.walkForward, 0, 1⟩] 0 0).map Prod.snd).sum = 1 :=
  (updateBlendNodeWeights_formula_and_sum [⟨.idle, 0, 0⟩, ⟨.walkForward, 0, 1⟩] 0 0
    (by simp) (by simp)).2

/-- Two samples sharing the state `idle` at distinct positions. -/
def dupSamples : List RSample := [⟨.idle, 0, 0⟩, ⟨.idle, 1, 0⟩]

/-- Claim C2 counterexample: for a non-empty sample list in which two samples
share the same state, the later sample's `Map.set` overwrites the earlier
stored weight while the running total still counts both, so the stored
weights sum to strictly less than 1 — the claim's "for every Blend node ...
the resulting weights sum to 1" fails. -/
theorem duplicate_state_sum_counterexample :
    dupSamples ≠ [] ∧ ((blendWeightsR dupSamples 0 0).map Prod.snd).sum ≠ 1 := by
  refine ⟨by simp [dupSamples], ?_⟩
  have h : blendWeightsR dupSamples 0 0 =
      [(.idle, rawWeight 0 0 ⟨.idle, 1, 0⟩ /
        (0 + rawWeight 0 0 ⟨.idle, 0, 0⟩ + rawWeight 0 0 ⟨.idle, 1, 0⟩))] := rfl
  rw [h]
  simp only [List.map_cons, List.map_nil, List.sum_cons, List.sum_nil]
  norm_num [rawWeight, Real.sqrt_zero, Real.sqrt_one]

/-- Looking up a sample's state in the per-sample weights map, when states
are pairwise distinct, returns that sample's value. -/
theorem mapLookup_map_of_nodup (l : List RSample) (s : RSample) (f : RSample → ℝ)
    (hnodup : (l.map RSample.state).Nodup) (hmem : s ∈ l) :
    mapLookup (l.map fun a => (a.state, f a)) s.state = some (f s) := by
  induction l with
  | nil => exact absurd hmem (by simp)
  | cons b rest ih =>
      rw [List.map_cons] at hnodup ⊢
      have hbnotin := (List.nodup_cons.mp hnodup).1
      rw [show mapLookup ((b.state, f b) :: rest.map fun a => (a.state, f a)) s.state =
            (if b.state = s.state then some (f b)
             else mapLookup (rest.map fun a => (a.state, f a)) s.state) from rfl]
      by_cases hb : b.state = s.state
      · rw [if_pos hb]
        have : s = b := by
          rcases List.mem_cons.mp hmem with rfl | hrest
          · rfl
          · exact absurd (hb ▸ List.mem_map_of_mem RSample.state hrest) hbnotin
        rw [this]
      · rw [if_neg hb]
        have hrest : s ∈ rest := by
          rcases List.mem_cons.mp hmem with rfl | hrest
          · exact absurd rfl hb
          · exact hrest
        exact ih (List.nodup_cons.mp hnodup).2 hrest

/-- Claim C9 (amended, restricted to samples with pairwise-distinct states):
for a blend node with at least two samples at pairwise-distinct positions
whose states are also pairwise distinct, when the 2D input equals sample
`i`'s exact position, the weight stored for sample `i`'s state is the
maximum among all stored weights and is strictly less than 1 (the `0.001`
epsilon keeps the denominator finite, so every other sample keeps a strictly
positive share).  (With duplicate states the stored weight for sample `i`'s
state can fail to be maximal — see the counterexample.) -/
theorem dominant_at_sample_position (samples : List RSample) (s : RSample)
    (hnodup : (samples.map RSample.state).Nodup)
    (hlen : 2 ≤ samples.length)
    (hpos : samples.Pairwise (fun a b => (a.x, a.z) ≠ (b.x, b.z)))
    (hmem : s ∈ samples) :
    ∃ w, mapLookup (blendWeightsR samples s.x s.z) s.state = some w ∧
      (∀ p ∈ blendWeightsR samples s.x s.z, p.2 ≤ w) ∧ w < 1 := by
  have hTpos : 0 < (samples.map (rawWeight s.x s.z)).sum := by
    apply List.sum_pos
    · intro w hw
      obtain ⟨a, -, rfl⟩ := List.mem_map.mp hw
      exact rawWeight_pos s.x s.z a
    · simp only [ne_eq, List.map_eq_nil_iff]
      intro hcontra
      rw [hcontra] at hmem
      exact absurd hmem (by simp)
  rw [blendWeightsR_eq samples s.x s.z hnodup]
  refine ⟨rawWeight s.x s.z s / (samples.map (rawWeight s.x s.z)).sum,
    mapLookup_map_of_nodup samples s _ hnodup hmem, ?_, ?_⟩
  · intro p hp
    obtain ⟨a, -, rfl⟩ := List.mem_map.mp hp
    show rawWeight s.x s.z a / _ ≤ _
    rw [div_le_div_iff_of_pos_right hTpos]
    exact (rawWeight_le s.x s.z a).trans (le_of_eq (rawWeight_self s).symm)
  · rw [div_lt_one hTpos]
    obtain ⟨l1, l2, rfl⟩ := List.append_of_mem hmem
    rw [List.map_append, List.map_cons, List.sum_append, List.sum_cons]
    have hnonneg : ∀ (l : List RSample), 0 ≤ (l.map (rawWeight s.x s.z)).sum := by
      intro l
      apply List.sum_nonneg
      intro w hw
      obtain ⟨a, -, rfl⟩ := List.mem_map.mp hw
      exact le_of_lt (rawWeight_pos s.x s.z a)
    have hlen' : l1.length + l2.length ≥ 1 := by
      have := hlen
      simp only [List.length_append, List.length_cons] at this
      omega
    rcases Nat.lt_or_ge l1.length 1 with h1 | h1
    · have hl1 : l1 = [] := List.eq_nil_of_length_eq_zero (by omega)
      have hl2 : l2 ≠ [] := by
        intro hcontra
        rw [hl1, hcontra] at hlen'
        simp at hlen'
      have : 0 < (l2.map (rawWeight s.x s.z)).sum := by
        apply List.sum_pos
        · intro w hw
          obtain ⟨a, -, rfl⟩ := List.mem_map.mp hw
          exact rawWeight_pos s.x s.z a
        · simpa using hl2
      have h0 := hnonneg l1
      linarith
    · have hl1 : l1 ≠ [] := by
        intro hcontra
        rw [hcontra] at h1
        simp at h1
      have : 0 < (l1.map (rawWeight s.x s.z)).sum := by
        apply List.sum_pos
        · intro w hw
          obtain ⟨a, -, rfl⟩ := List.mem_map.mp hw
          exact rawWeight_pos s.x s.z a
        · simpa using hl1
      have h0 := hnonneg l2
      linarith

/-- Witness for `dominant_at_sample_position` at the two-sample blend
`idle@(0,0), walkForward@(0,1)` and input at the `idle` sample. -/
theorem dominant_at_sample_position_witness :
    ∃ w, mapLookup (blendWeightsR [⟨.idle, 0, 0⟩, ⟨.walkForward, 0, 1⟩]
        (⟨.idle, 0, 0⟩ : RSample).x (⟨.idle, 0, 0⟩ : RSample).z)
        (⟨.idle, 0, 0⟩ : RSample).state = some w ∧
      (∀ p ∈ blendWeightsR [⟨.idle, 0, 0⟩, ⟨.walkForward, 0, 1⟩]
          (⟨.idle, 0, 0⟩ : RSample).x (⟨.idle, 0, 0⟩ : RSample).z, p.2 ≤ w) ∧ w < 1 :=
  dominant_at_sample_position [⟨.idle, 0, 0⟩, ⟨.walkForward, 0, 1⟩] ⟨.idle, 0, 0⟩
    (by simp) (by simp)
    (by norm_num [List.pairwise_cons, Prod.ext_iff])
    (by simp)

/-- Three samples at pairwise-distinct positions, the first and third sharing
the state `idle`. -/
def trioSamples : List RSample := [⟨.idle, 0, 0⟩, ⟨.walkForward, 1, 0⟩, ⟨.idle, 2, 0⟩]

/-- Claim C9 counterexample: with at least two samples at pairwise-distinct
positions but a duplicated state, at the exact position of the first sample
the weight stored for its state (`idle`, overwritten by the far-away third
sample) is strictly SMALLER than another stored weight, so it is not the
maximum the claim asserts. -/
theorem duplicate_state_dominance_counterexample :
    2 ≤ trioSamples.length ∧
      trioSamples.Pairwise (fun a b => (a.x, a.z) ≠ (b.x, b.z)) ∧
      (mapLookup (blendWeightsR trioSamples 0 0) .idle).getD 0 <
        (mapLookup (blendWeightsR trioSamples 0 0) .walkForward).getD 0 := by
  refine ⟨by simp [trioSamples], by norm_num [trioSamples, List.pairwise_cons, Prod.ext_iff], ?_⟩
  have h : blendWeightsR trioSamples 0 0 =
      [(.idle, rawWeight 0 0 ⟨.idle, 2, 0⟩ /
          (0 + rawWeight 0 0 ⟨.idle, 0, 0⟩ + rawWeight 0 0 ⟨.walkForward, 1, 0⟩ +
            rawWeight 0 0 ⟨.idle, 2, 0⟩)),
        (.walkForward, rawWeight 0 0 ⟨.walkForward, 1, 0⟩ /
          (0 + rawWeight 0 0 ⟨.idle, 0, 0⟩ + rawWeight 0 0 ⟨.walkForward, 1, 0⟩ +
            rawWeight 0 0 ⟨.idle, 2, 0⟩))] := rfl
  rw [h]
  show rawWeight 0 0 ⟨.idle, 2, 0⟩ / _ < rawWeight 0 0 ⟨.walkForward, 1, 0⟩ / _
  have h4 : Real.sqrt 4 = 2 := by
    rw [show (4 : ℝ) = 2 ^ 2 by norm_num, Real.sqrt_sq (by norm_num : (0 : ℝ) ≤ 2)]
  norm_num [rawWeight, Real.sqrt_zero, Real.sqrt_one, h4]
